import Mathlib

/-!
Shallow embedding of the color-resolution core of `bot.py` (color-wizard).

Strings are modelled by Lean `String`/`List Char`; Python floats by `ℚ`
(all arithmetic in the program is exact decimal arithmetic); Python `int()`
truncation, `%`, `max`/`min` clamping are modelled explicitly below.
-/

namespace ColorWizard

/-- ASCII whitespace, the characters stripped by Python `str.strip()` and
used as separators by `str.split()`. -/
def isSpaceChar (c : Char) : Bool :=
  decide (c.toNat = 32 ∨ c.toNat = 9 ∨ c.toNat = 10 ∨ c.toNat = 13 ∨
    c.toNat = 11 ∨ c.toNat = 12)

/-- A character matching the regex class `[0-9A-Fa-f]` (by code point). -/
def isHexDigitChar (c : Char) : Bool :=
  decide ((48 ≤ c.toNat ∧ c.toNat ≤ 57) ∨ (65 ≤ c.toNat ∧ c.toNat ≤ 70) ∨
    (97 ≤ c.toNat ∧ c.toNat ≤ 102))

/-- Numeric value of a hexadecimal digit character (0 on non-digits). -/
def hexVal (c : Char) : ℕ :=
  if 48 ≤ c.toNat ∧ c.toNat ≤ 57 then c.toNat - 48
  else if 65 ≤ c.toNat ∧ c.toNat ≤ 70 then c.toNat - 55
  else if 97 ≤ c.toNat ∧ c.toNat ≤ 102 then c.toNat - 87
  else 0

/-- ASCII uppercasing of one character, as Python `str.upper()` does on ASCII. -/
def upperChar (c : Char) : Char :=
  if 97 ≤ c.toNat ∧ c.toNat ≤ 122 then Char.ofNat (c.toNat - 32) else c

/-- ASCII lowercasing of one character, as Python `str.lower()` does on ASCII. -/
def lowerChar (c : Char) : Char :=
  if 65 ≤ c.toNat ∧ c.toNat ≤ 90 then Char.ofNat (c.toNat + 32) else c

/-- Python `str.upper()` (ASCII fragment). -/
def pyUpper (s : String) : String := ⟨s.data.map upperChar⟩

/-- Python `str.lower()` (ASCII fragment). -/
def pyLower (s : String) : String := ⟨s.data.map lowerChar⟩

/-- Python `str.strip()` on a character list: drop whitespace at both ends. -/
def stripList (l : List Char) : List Char :=
  ((l.dropWhile isSpaceChar).reverse.dropWhile isSpaceChar).reverse

/-- Python `str.strip()`. -/
def pyStrip (s : String) : String := ⟨stripList s.data⟩

/-- Big-endian value of a list of hex digit characters, i.e. `int(s, 16)`. -/
def hexNat (l : List Char) : ℕ := l.foldl (fun a c => a * 16 + hexVal c) 0

/-- `parse_hex_color` from `bot.py`: strip whitespace and every leading `#`
(`str.lstrip("#")`), then accept exactly 6 hex digits, or exactly 3 hex
digits with each digit duplicated (`"".join(c * 2 for c in s)`). -/
def parse_hex_color (s : String) : Option ℕ :=
  let t := (stripList s.data).dropWhile (· == '#')
  if t.length = 6 ∧ t.all isHexDigitChar then some (hexNat t)
  else if t.length = 3 ∧ t.all isHexDigitChar then
    some (hexNat (t.flatMap (fun c => [c, c])))
  else none

/-- First-match association-list lookup, modelling a Python dict lookup. -/
def lookupTbl {α : Type} : List (String × α) → String → Option α
  | [], _ => none
  | (k, v) :: t, w => if k = w then some v else lookupTbl t w

/-- Modelled from the spec: the external name-to-color capability used by
`color_name_to_hex` (the `webcolors` library, absent from the sources) is
"a fixed, standards-based name table, e.g. CSS/web color names".  This is
the CSS3 extended color keyword table, packed as 24-bit integers. -/
def CSS_COLORS : List (String × ℕ) := [
  ("aliceblue", 0xf0f8ff), ("antiquewhite", 0xfaebd7), ("aqua", 0x00ffff),
  ("aquamarine", 0x7fffd4), ("azure", 0xf0ffff), ("beige", 0xf5f5dc),
  ("bisque", 0xffe4c4), ("black", 0x000000), ("blanchedalmond", 0xffebcd),
  ("blue", 0x0000ff), ("blueviolet", 0x8a2be2), ("brown", 0xa52a2a),
  ("burlywood", 0xdeb887), ("cadetblue", 0x5f9ea0), ("chartreuse", 0x7fff00),
  ("chocolate", 0xd2691e), ("coral", 0xff7f50), ("cornflowerblue", 0x6495ed),
  ("cornsilk", 0xfff8dc), ("crimson", 0xdc143c), ("cyan", 0x00ffff),
  ("darkblue", 0x00008b), ("darkcyan", 0x008b8b), ("darkgoldenrod", 0xb8860b),
  ("darkgray", 0xa9a9a9), ("darkgreen", 0x006400), ("darkgrey", 0xa9a9a9),
  ("darkkhaki", 0xbdb76b), ("darkmagenta", 0x8b008b),
  ("darkolivegreen", 0x556b2f), ("darkorange", 0xff8c00),
  ("darkorchid", 0x9932cc), ("darkred", 0x8b0000), ("darksalmon", 0xe9967a),
  ("darkseagreen", 0x8fbc8f), ("darkslateblue", 0x483d8b),
  ("darkslategray", 0x2f4f4f), ("darkslategrey", 0x2f4f4f),
  ("darkturquoise", 0x00ced1), ("darkviolet", 0x9400d3),
  ("deeppink", 0xff1493), ("deepskyblue", 0x00bfff), ("dimgray", 0x696969),
  ("dimgrey", 0x696969), ("dodgerblue", 0x1e90ff), ("firebrick", 0xb22222),
  ("floralwhite", 0xfffaf0), ("forestgreen", 0x228b22), ("fuchsia", 0xff00ff),
  ("gainsboro", 0xdcdcdc), ("ghostwhite", 0xf8f8ff), ("gold", 0xffd700),
  ("goldenrod", 0xdaa520), ("gray", 0x808080), ("green", 0x008000),
  ("greenyellow", 0xadff2f), ("grey", 0x808080), ("honeydew", 0xf0fff0),
  ("hotpink", 0xff69b4), ("indianred", 0xcd5c5c), ("indigo", 0x4b0082),
  ("ivory", 0xfffff0), ("khaki", 0xf0e68c), ("lavender", 0xe6e6fa),
  ("lavenderblush", 0xfff0f5), ("lawngreen", 0x7cfc00),
  ("lemonchiffon", 0xfffacd), ("lightblue", 0xadd8e6),
  ("lightcoral", 0xf08080), ("lightcyan", 0xe0ffff),
  ("lightgoldenrodyellow", 0xfafad2), ("lightgray", 0xd3d3d3),
  ("lightgreen", 0x90ee90), ("lightgrey", 0xd3d3d3), ("lightpink", 0xffb6c1),
  ("lightsalmon", 0xffa07a), ("lightseagreen", 0x20b2aa),
  ("lightskyblue", 0x87cefa), ("lightslategray", 0x778899),
  ("lightslategrey", 0x778899), ("lightsteelblue", 0xb0c4de),
  ("lightyellow", 0xffffe0), ("lime", 0x00ff00), ("limegreen", 0x32cd32),
  ("linen", 0xfaf0e6), ("magenta", 0xff00ff), ("maroon", 0x800000),
  ("mediumaquamarine", 0x66cdaa), ("mediumblue", 0x0000cd),
  ("mediumorchid", 0xba55d3), ("mediumpurple", 0x9370db),
  ("mediumseagreen", 0x3cb371), ("mediumslateblue", 0x7b68ee),
  ("mediumspringgreen", 0x00fa9a), ("mediumturquoise", 0x48d1cc),
  ("mediumvioletred", 0xc71585), ("midnightblue", 0x191970),
  ("mintcream", 0xf5fffa), ("mistyrose", 0xffe4e1), ("moccasin", 0xffe4b5),
  ("navajowhite", 0xffdead), ("navy", 0x000080), ("oldlace", 0xfdf5e6),
  ("olive", 0x808000), ("olivedrab", 0x6b8e23), ("orange", 0xffa500),
  ("orangered", 0xff4500), ("orchid", 0xda70d6),
  ("palegoldenrod", 0xeee8aa), ("palegreen", 0x98fb98),
  ("paleturquoise", 0xafeeee), ("palevioletred", 0xdb7093),
  ("papayawhip", 0xffefd5), ("peachpuff", 0xffdab9), ("peru", 0xcd853f),
  ("pink", 0xffc0cb), ("plum", 0xdda0dd), ("powderblue", 0xb0e0e6),
  ("purple", 0x800080), ("red", 0xff0000), ("rosybrown", 0xbc8f8f),
  ("royalblue", 0x4169e1), ("saddlebrown", 0x8b4513), ("salmon", 0xfa8072),
  ("sandybrown", 0xf4a460), ("seagreen", 0x2e8b57), ("seashell", 0xfff5ee),
  ("sienna", 0xa0522d), ("silver", 0xc0c0c0), ("skyblue", 0x87ceeb),
  ("slateblue", 0x6a5acd), ("slategray", 0x708090), ("slategrey", 0x708090),
  ("snow", 0xfffafa), ("springgreen", 0x00ff7f), ("steelblue", 0x4682b4),
  ("tan", 0xd2b48c), ("teal", 0x008080), ("thistle", 0xd8bfd8),
  ("tomato", 0xff6347), ("turquoise", 0x40e0d0), ("violet", 0xee82ee),
  ("wheat", 0xf5deb3), ("white", 0xffffff), ("whitesmoke", 0xf5f5f5),
  ("yellow", 0xffff00), ("yellowgreen", 0x9acd32)]

/-- `color_name_to_hex` from `bot.py`: lowercase, strip, then look the name
up in the external table (negative lookup is a `None`, not an error). -/
def color_name_to_hex (s : String) : Option ℕ :=
  lookupTbl CSS_COLORS (pyStrip (pyLower s))

/-- `BASE_COLORS` from `bot.py` (order preserved): name to HSL triple. -/
def BASE_COLORS : List (String × (ℚ × ℚ × ℚ)) := [
  ("red", (0, 100, 50)), ("orange", (30, 100, 50)), ("yellow", (60, 100, 50)),
  ("lime", (90, 100, 50)), ("green", (120, 100, 40)), ("teal", (180, 100, 35)),
  ("cyan", (180, 100, 50)), ("blue", (210, 100, 50)),
  ("indigo", (240, 100, 40)), ("purple", (270, 100, 50)),
  ("violet", (270, 100, 60)), ("magenta", (300, 100, 50)),
  ("pink", (330, 100, 70)), ("brown", (30, 60, 30)), ("gray", (0, 0, 50)),
  ("grey", (0, 0, 50)), ("white", (0, 0, 100)), ("black", (0, 0, 0))]

/-- One entry of `MODIFIERS`: the dict `{"h_add": …, "s_mult": …, "l_add": …}`
with the source's `.get` defaults 0, 1.0, 0 made explicit. -/
structure HSLAdj where
  h_add : ℚ
  s_mult : ℚ
  l_add : ℚ
  deriving DecidableEq

/-- `MODIFIERS` from `bot.py` (order preserved); fields are
`h_add`, `s_mult`, `l_add`. -/
def MODIFIERS : List (String × HSLAdj) := [
  ("light", ⟨0, 1, 20⟩), ("pale", ⟨0, 0.6, 25⟩), ("pastel", ⟨0, 0.5, 30⟩),
  ("dark", ⟨0, 1, -25⟩), ("deep", ⟨0, 1.1, -20⟩), ("bright", ⟨0, 1.2, 5⟩),
  ("vivid", ⟨0, 1.3, 0⟩), ("muted", ⟨0, 0.5, 0⟩), ("dull", ⟨0, 0.4, 0⟩),
  ("soft", ⟨0, 0.6, 10⟩), ("neon", ⟨0, 1.4, 10⟩), ("electric", ⟨0, 1.3, 5⟩),
  ("dusty", ⟨0, 0.4, -5⟩), ("warm", ⟨15, 1, 0⟩), ("cool", ⟨-15, 1, 0⟩)]

/-- Python `%` on reals with a positive modulus: `a - b * ⌊a / b⌋`. -/
def pyMod (a b : ℚ) : ℚ := a - b * ⌊a / b⌋

/-- `max(0, min(100, q))` from `bot.py`. -/
def pyClamp (q : ℚ) : ℚ := max 0 (min 100 q)

/-- Python `int()` applied to a real: truncation toward zero. -/
def pyInt (q : ℚ) : ℤ := if 0 ≤ q then ⌊q⌋ else -⌊-q⌋

/-- `hsl_to_rgb` from `bot.py`.  H is 0-360, S and L are 0-100; the function
itself renormalizes `h % 360` and clamps s, l before converting. -/
def hsl_to_rgb (h s l : ℚ) : ℤ × ℤ × ℤ :=
  let h1 := pyMod h 360
  let s1 := pyClamp s / 100
  let l1 := pyClamp l / 100
  let c := (1 - |2 * l1 - 1|) * s1
  let x := c * (1 - |pyMod (h1 / 60) 2 - 1|)
  let m := l1 - c / 2
  let rgb : ℚ × ℚ × ℚ :=
    if h1 < 60 then (c, x, 0)
    else if h1 < 120 then (x, c, 0)
    else if h1 < 180 then (0, c, x)
    else if h1 < 240 then (0, x, c)
    else if h1 < 300 then (x, 0, c)
    else (c, 0, x)
  (pyInt ((rgb.1 + m) * 255), pyInt ((rgb.2.1 + m) * 255),
    pyInt ((rgb.2.2 + m) * 255))

/-- `(r << 16) | (g << 8) | b` from `bot.py` (channels are nonnegative). -/
def packRGB (r g b : ℤ) : ℕ := (r.toNat <<< 16) ||| (g.toNat <<< 8) ||| b.toNat

/-- Python `str.split()` with no argument: split on whitespace runs,
discarding empty tokens.  The accumulator holds the current token reversed. -/
def splitWsAux : List Char → List Char → List String
  | [], acc => if acc.isEmpty then [] else [⟨acc.reverse⟩]
  | c :: cs, acc =>
    if isSpaceChar c then
      if acc.isEmpty then splitWsAux cs [] else ⟨acc.reverse⟩ :: splitWsAux cs []
    else splitWsAux cs (c :: acc)

/-- Python `str.split()`. -/
def pySplit (s : String) : List String := splitWsAux s.data []

/-- The token list of `parse_vague_color`: `input.lower().strip().split()`. -/
def words (s : String) : List String := pySplit (pyStrip (pyLower s))

/-- The base-color scan of `parse_vague_color`: first token that is a key of
`BASE_COLORS` becomes the base; the remaining tokens (`words[:i] + words[i+1:]`)
are the candidate modifier tokens in their original relative order. -/
def findBase : List String → Option ((ℚ × ℚ × ℚ) × List String)
  | [] => none
  | w :: ws =>
    match lookupTbl BASE_COLORS w with
    | some hsl => some (hsl, ws)
    | none => (findBase ws).map (fun p => (p.1, w :: p.2))

/-- One step of the modifier loop in `parse_vague_color`: a token not in
`MODIFIERS` leaves the running HSL state unchanged. -/
def applyMod (p : ℚ × ℚ × ℚ) (w : String) : ℚ × ℚ × ℚ :=
  match lookupTbl MODIFIERS w with
  | none => p
  | some adj => (p.1 + adj.h_add, p.2.1 * adj.s_mult, p.2.2 + adj.l_add)

/-- The modifier loop of `parse_vague_color`, left to right. -/
def applyMods (p : ℚ × ℚ × ℚ) (ws : List String) : ℚ × ℚ × ℚ :=
  ws.foldl applyMod p

/-- The tail of `parse_vague_color`: normalize hue, clamp saturation and
lightness, convert to RGB and pack. -/
def finishVague (p : ℚ × ℚ × ℚ) : ℕ :=
  let h := pyMod p.1 360
  let s := pyClamp p.2.1
  let l := pyClamp p.2.2
  let r := hsl_to_rgb h s l
  packRGB r.1 r.2.1 r.2.2

/-- `parse_vague_color` on an already tokenized phrase. -/
def parseVagueWords (ws : List String) : Option ℕ :=
  (findBase ws).map (fun p => finishVague (applyMods p.1 p.2))

/-- `parse_vague_color` from `bot.py`. -/
def parse_vague_color (s : String) : Option ℕ :=
  parseVagueWords (words s)

/-- Uppercase hexadecimal digit character for a value below 16. -/
def digChar (v : ℕ) : Char :=
  if v < 10 then Char.ofNat (48 + v) else Char.ofNat (55 + v)

/-- Fueled big-endian uppercase hex digits of `n`, no leading zeros. -/
def natHexDigitsAux : ℕ → ℕ → List Char
  | 0, _ => []
  | f + 1, n => if n = 0 then [] else natHexDigitsAux f (n / 16) ++ [digChar (n % 16)]

/-- Big-endian uppercase hex digits of `n` (empty for 0); `n` is enough fuel
because a number never has more hex digits than its own magnitude. -/
def natHexDigits (n : ℕ) : List Char := natHexDigitsAux n n

/-- Python `format(n, "06X")`: uppercase hex, zero-padded to width 6. -/
def fmt06X (n : ℕ) : String :=
  let ds := if n = 0 then ['0'] else natHexDigits n
  ⟨List.replicate (6 - ds.length) '0' ++ ds⟩

/-- The f-string `f"#{c:06X}"` used by `get_color_from_input`. -/
def fmtHex (n : ℕ) : String := "#" ++ fmt06X n

/-- `get_color_from_input` from `bot.py`: hex first, then the external name
table, then vague descriptions; `(None, "")` when all three fail. -/
def get_color_from_input (s : String) : Option ℕ × String :=
  match parse_hex_color s with
  | some c => (some c, fmtHex c)
  | none =>
    match color_name_to_hex s with
    | some c => (some c, fmtHex c)
    | none =>
      match parse_vague_color s with
      | some c => (some c, fmtHex c)
      | none => (none, "")

/-- `get_role_name` from `bot.py`: `f"color-{hex_string.lstrip('#').upper()}"`. -/
def get_role_name (s : String) : String :=
  "color-" ++ pyUpper ⟨s.data.dropWhile (· == '#')⟩

/-- Spec-side helper: the big-endian base-16 digit string of `n` written with
exactly `k` digits (leading zeros included). -/
def digitsBE : ℕ → ℕ → List Char
  | 0, _ => []
  | k + 1, n => digitsBE k (n / 16) ++ [digChar (n % 16)]

/-- Spec-side predicate: an uppercase hexadecimal digit (`0`-`9` or `A`-`F`). -/
def isUpperHexDigit (c : Char) : Bool :=
  decide ((48 ≤ c.toNat ∧ c.toNat ≤ 57) ∨ (65 ≤ c.toNat ∧ c.toNat ≤ 70))

/-- Restatement of the spec's HSL-to-RGB contract (claim C7): chroma
`c = (1 - |2l - 1|) * s`, `x = c * (1 - |(h / 60) mod 2 - 1|)`,
`m = l - c / 2` with s, l normalized to [0, 1]; the pre-offset triple is
selected by the 60-degree sector index `⌊h / 60⌋` from the standard table;
each channel is offset by `m` and scaled by 255 with truncation toward 0. -/
def hslToRgbSpec (h s l : ℚ) : ℤ × ℤ × ℤ :=
  let s1 := s / 100
  let l1 := l / 100
  let c := (1 - |2 * l1 - 1|) * s1
  let x := c * (1 - |pyMod (h / 60) 2 - 1|)
  let m := l1 - c / 2
  let sector := ⌊h / 60⌋
  let rgb : ℚ × ℚ × ℚ :=
    if sector = 0 then (c, x, 0)
    else if sector = 1 then (x, c, 0)
    else if sector = 2 then (0, c, x)
    else if sector = 3 then (0, x, c)
    else if sector = 4 then (x, 0, c)
    else (c, 0, x)
  (pyInt ((rgb.1 + m) * 255), pyInt ((rgb.2.1 + m) * 255),
    pyInt ((rgb.2.2 + m) * 255))

/-! ### Character-level lemmas -/

theorem isHexDigitChar_iff {c : Char} : isHexDigitChar c = true ↔
    (48 ≤ c.toNat ∧ c.toNat ≤ 57) ∨ (65 ≤ c.toNat ∧ c.toNat ≤ 70) ∨
    (97 ≤ c.toNat ∧ c.toNat ≤ 102) := by
  simp [isHexDigitChar]

theorem hexVal_lt (c : Char) : hexVal c < 16 := by
  unfold hexVal
  split_ifs <;> omega

theorem not_space_of_hexDigit {c : Char} (h : isHexDigitChar c = true) :
    isSpaceChar c = false := by
  rw [isHexDigitChar_iff] at h
  simp only [isSpaceChar, decide_eq_false_iff_not]
  omega

theorem ne_hash_of_hexDigit {c : Char} (h : isHexDigitChar c = true) :
    (c == '#') = false := by
  rw [isHexDigitChar_iff] at h
  rw [beq_eq_false_iff_ne]
  intro hc
  rw [hc] at h
  simp at h

theorem digChar_hexVal {c : Char} (h : isHexDigitChar c = true) :
    digChar (hexVal c) = upperChar c := by
  rw [isHexDigitChar_iff] at h
  rcases h with ⟨h1, h2⟩ | ⟨h1, h2⟩ | ⟨h1, h2⟩
  · have hv : hexVal c = c.toNat - 48 := by unfold hexVal; rw [if_pos ⟨h1, h2⟩]
    unfold digChar upperChar
    rw [hv, if_pos (by omega : c.toNat - 48 < 10),
      if_neg (by omega : ¬(97 ≤ c.toNat ∧ c.toNat ≤ 122)),
      (by omega : 48 + (c.toNat - 48) = c.toNat), Char.ofNat_toNat]
  · have hv : hexVal c = c.toNat - 55 := by
      unfold hexVal
      rw [if_neg (by omega : ¬(48 ≤ c.toNat ∧ c.toNat ≤ 57)), if_pos ⟨h1, h2⟩]
    unfold digChar upperChar
    rw [hv, if_neg (by omega : ¬(c.toNat - 55 < 10)),
      if_neg (by omega : ¬(97 ≤ c.toNat ∧ c.toNat ≤ 122)),
      (by omega : 55 + (c.toNat - 55) = c.toNat), Char.ofNat_toNat]
  · have hv : hexVal c = c.toNat - 87 := by
      unfold hexVal
      rw [if_neg (by omega : ¬(48 ≤ c.toNat ∧ c.toNat ≤ 57)),
        if_neg (by omega : ¬(65 ≤ c.toNat ∧ c.toNat ≤ 70)), if_pos ⟨h1, h2⟩]
    unfold digChar upperChar
    rw [hv, if_neg (by omega : ¬(c.toNat - 87 < 10)),
      if_pos (by omega : 97 ≤ c.toNat ∧ c.toNat ≤ 122),
      (by omega : 55 + (c.toNat - 87) = c.toNat - 32)]

theorem hexVal_digChar {v : ℕ} (h : v < 16) : hexVal (digChar v) = v := by
  interval_cases v <;> decide

theorem isUpperHexDigit_digChar {v : ℕ} (h : v < 16) :
    isUpperHexDigit (digChar v) = true := by
  interval_cases v <;> decide

/-! ### Hex parsing / formatting lemmas -/

theorem hexNat_snoc (l : List Char) (c : Char) :
    hexNat (l ++ [c]) = hexNat l * 16 + hexVal c := by
  simp [hexNat, List.foldl_append]

theorem hexNat_lt (l : List Char) : hexNat l < 16 ^ l.length := by
  induction l using List.reverseRecOn with
  | nil => simp [hexNat]
  | append_singleton l c ih =>
    rw [hexNat_snoc]
    have hv := hexVal_lt c
    have : 16 ^ (l ++ [c]).length = 16 ^ l.length * 16 := by
      simp [pow_succ]
    omega

theorem digitsBE_length (k n : ℕ) : (digitsBE k n).length = k := by
  induction k generalizing n with
  | zero => rfl
  | succ k ih => simp [digitsBE, ih]

theorem digitsBE_zero (k : ℕ) : digitsBE k 0 = List.replicate k '0' := by
  induction k with
  | zero => rfl
  | succ k ih =>
    rw [digitsBE, Nat.zero_div, ih, List.replicate_succ']
    rfl

theorem hexNat_digitsBE {k n : ℕ} (h : n < 16 ^ k) :
    hexNat (digitsBE k n) = n := by
  induction k generalizing n with
  | zero =>
    simp only [pow_zero, Nat.lt_one_iff] at h
    subst h
    rfl
  | succ k ih =>
    rw [digitsBE, hexNat_snoc, hexVal_digChar (Nat.mod_lt _ (by norm_num)),
      ih (by rw [pow_succ] at h; omega)]
    omega

theorem mem_digitsBE_upperHex {k n : ℕ} {c : Char} (h : c ∈ digitsBE k n) :
    isUpperHexDigit c = true := by
  induction k generalizing n with
  | zero => simp [digitsBE] at h
  | succ k ih =>
    rw [digitsBE, List.mem_append] at h
    rcases h with h | h
    · exact ih h
    · rw [List.mem_singleton] at h
      subst h
      exact isUpperHexDigit_digChar (Nat.mod_lt _ (by norm_num))

theorem digitsBE_of_digits {l : List Char}
    (h : ∀ c ∈ l, isHexDigitChar c = true) :
    digitsBE l.length (hexNat l) = l.map upperChar := by
  induction l using List.reverseRecOn with
  | nil => rfl
  | append_singleton l c ih =>
    have hc : isHexDigitChar c = true := h c (by simp)
    have hl : ∀ c ∈ l, isHexDigitChar c = true := fun d hd => h d (by simp [hd])
    have hvc := hexVal_lt c
    rw [hexNat_snoc]
    have hlen : (l ++ [c]).length = l.length + 1 := by simp
    rw [hlen, digitsBE,
      (by omega : (hexNat l * 16 + hexVal c) / 16 = hexNat l),
      (by omega : (hexNat l * 16 + hexVal c) % 16 = hexVal c),
      ih hl, digChar_hexVal hc, List.map_append, List.map_singleton]

theorem natHexDigitsAux_zero (f : ℕ) : natHexDigitsAux f 0 = [] := by
  cases f <;> rfl

theorem natHexDigitsAux_fuel {n : ℕ} :
    ∀ {f₁ f₂ : ℕ}, n ≤ f₁ → n ≤ f₂ → natHexDigitsAux f₁ n = natHexDigitsAux f₂ n := by
  induction n using Nat.strong_induction_on with
  | _ n ih =>
    intro f₁ f₂ h₁ h₂
    rcases Nat.eq_zero_or_pos n with hn | hn
    · subst hn
      rw [natHexDigitsAux_zero, natHexDigitsAux_zero]
    · obtain ⟨g₁, rfl⟩ : ∃ g, f₁ = g + 1 := ⟨f₁ - 1, by omega⟩
      obtain ⟨g₂, rfl⟩ : ∃ g, f₂ = g + 1 := ⟨f₂ - 1, by omega⟩
      have hd : n / 16 < n := Nat.div_lt_self hn (by norm_num)
      rw [natHexDigitsAux, natHexDigitsAux, if_neg (by omega : ¬n = 0),
        if_neg (by omega : ¬n = 0),
        ih (n / 16) hd (by omega) (by omega : n / 16 ≤ g₂)]

theorem natHexDigits_step {n : ℕ} (hn : n ≠ 0) :
    natHexDigits n = natHexDigits (n / 16) ++ [digChar (n % 16)] := by
  obtain ⟨m, rfl⟩ : ∃ m, n = m + 1 := ⟨n - 1, by omega⟩
  have hd : (m + 1) / 16 < m + 1 := Nat.div_lt_self (by omega) (by norm_num)
  unfold natHexDigits
  rw [natHexDigitsAux, if_neg hn,
    natHexDigitsAux_fuel (by omega : (m + 1) / 16 ≤ m) (le_refl _)]

theorem pad_natHexDigits {k n : ℕ} (h : n < 16 ^ k) :
    List.replicate (k - (natHexDigits n).length) '0' ++ natHexDigits n =
      digitsBE k n := by
  induction k generalizing n with
  | zero =>
    simp only [pow_zero, Nat.lt_one_iff] at h
    subst h
    rfl
  | succ k ih =>
    rcases Nat.eq_zero_or_pos n with hn | hn
    · subst hn
      rw [digitsBE_zero]
      simp [natHexDigits, natHexDigitsAux_zero]
    · have hdiv : n / 16 < 16 ^ k := by rw [pow_succ] at h; omega
      rw [natHexDigits_step (by omega), List.length_append, List.length_singleton,
        digitsBE, ← ih hdiv,
        (by omega : k + 1 - ((natHexDigits (n / 16)).length + 1) =
          k - (natHexDigits (n / 16)).length),
        List.append_assoc]

theorem fmt06X_eq_digitsBE {n : ℕ} (h : n < 16 ^ 6) :
    fmt06X n = ⟨digitsBE 6 n⟩ := by
  rcases Nat.eq_zero_or_pos n with hn | hn
  · subst hn
    decide
  · unfold fmt06X
    rw [if_neg (by omega : ¬n = 0)]
    show (⟨List.replicate (6 - (natHexDigits n).length) '0' ++ natHexDigits n⟩ : String) = _
    rw [pad_natHexDigits h]

/-! ### Arithmetic lemmas: Python `%`, clamping, `int()` truncation -/

theorem pyMod_nonneg (a : ℚ) {b : ℚ} (hb : 0 < b) : 0 ≤ pyMod a b := by
  have h1 : (⌊a / b⌋ : ℚ) * b ≤ a := (le_div_iff₀ hb).mp (Int.floor_le _)
  unfold pyMod
  nlinarith

theorem pyMod_lt (a : ℚ) {b : ℚ} (hb : 0 < b) : pyMod a b < b := by
  have h1 : a < ((⌊a / b⌋ : ℚ) + 1) * b := (div_lt_iff₀ hb).mp (Int.lt_floor_add_one _)
  unfold pyMod
  nlinarith

theorem pyMod_eq_self {a b : ℚ} (h0 : 0 ≤ a) (hab : a < b) : pyMod a b = a := by
  have hb : 0 < b := lt_of_le_of_lt h0 hab
  have : ⌊a / b⌋ = 0 := by
    rw [Int.floor_eq_zero_iff]
    constructor
    · exact div_nonneg h0 (le_of_lt hb)
    · rw [div_lt_one hb]
      exact hab
  unfold pyMod
  rw [this]
  push_cast
  ring

theorem pyClamp_nonneg (q : ℚ) : 0 ≤ pyClamp q := le_max_left 0 _

theorem pyClamp_le (q : ℚ) : pyClamp q ≤ 100 :=
  max_le (by norm_num) (min_le_left 100 q)

theorem pyClamp_eq_self {q : ℚ} (h0 : 0 ≤ q) (h1 : q ≤ 100) : pyClamp q = q := by
  unfold pyClamp
  rw [min_eq_right h1, max_eq_right h0]

theorem pyInt_of_nonneg {q : ℚ} (h : 0 ≤ q) : pyInt q = ⌊q⌋ := if_pos h

theorem pyInt_bounds {q : ℚ} (h0 : 0 ≤ q) (h1 : q ≤ 255) :
    0 ≤ pyInt q ∧ pyInt q ≤ 255 := by
  rw [pyInt_of_nonneg h0]
  constructor
  · exact Int.le_floor.mpr (by exact_mod_cast h0)
  · have : (⌊q⌋ : ℚ) ≤ 255 := le_trans (Int.floor_le q) h1
    exact_mod_cast this

theorem packRGB_lt {r g b : ℤ} (hr : r ≤ 255) (hg : g ≤ 255) (hb : b ≤ 255) :
    packRGB r g b < 2 ^ 24 := by
  unfold packRGB
  have hr' : r.toNat ≤ 255 := Int.toNat_le.mpr (by exact_mod_cast hr)
  have hg' : g.toNat ≤ 255 := Int.toNat_le.mpr (by exact_mod_cast hg)
  have hb' : b.toNat ≤ 255 := Int.toNat_le.mpr (by exact_mod_cast hb)
  have h16 : (2 : ℕ) ^ 16 = 65536 := by norm_num
  have h8 : (2 : ℕ) ^ 8 = 256 := by norm_num
  have h24 : (2 : ℕ) ^ 24 = 16777216 := by norm_num
  apply Nat.or_lt_two_pow
  · apply Nat.or_lt_two_pow
    · rw [Nat.shiftLeft_eq]
      omega
    · rw [Nat.shiftLeft_eq]
      omega
  · omega

/-! ### Bounds for the HSL to RGB conversion -/

theorem pyIntChannel_bounds {q : ℚ} (h0 : 0 ≤ q) (h1 : q ≤ 1) :
    0 ≤ pyInt (q * 255) ∧ pyInt (q * 255) ≤ 255 :=
  pyInt_bounds (by nlinarith) (by nlinarith)

theorem hsl_to_rgb_bounds (h s l : ℚ) :
    (0 ≤ (hsl_to_rgb h s l).1 ∧ (hsl_to_rgb h s l).1 ≤ 255) ∧
    (0 ≤ (hsl_to_rgb h s l).2.1 ∧ (hsl_to_rgb h s l).2.1 ≤ 255) ∧
    (0 ≤ (hsl_to_rgb h s l).2.2 ∧ (hsl_to_rgb h s l).2.2 ≤ 255) := by
  unfold hsl_to_rgb
  dsimp only
  set h1 := pyMod h 360 with hh1
  set s1 := pyClamp s / 100 with hs1
  set l1 := pyClamp l / 100 with hl1
  set c := (1 - |2 * l1 - 1|) * s1 with hc
  set x := c * (1 - |pyMod (h1 / 60) 2 - 1|) with hx
  set m := l1 - c / 2 with hm
  have hs1b : 0 ≤ s1 ∧ s1 ≤ 1 := by
    constructor
    · exact div_nonneg (pyClamp_nonneg s) (by norm_num)
    · rw [hs1, div_le_one (by norm_num)]
      exact pyClamp_le s
  have hl1b : 0 ≤ l1 ∧ l1 ≤ 1 := by
    constructor
    · exact div_nonneg (pyClamp_nonneg l) (by norm_num)
    · rw [hl1, div_le_one (by norm_num)]
      exact pyClamp_le l
  have habs : |2 * l1 - 1| ≤ 1 := by
    rw [abs_le]
    constructor <;> [linarith [hl1b.1]; linarith [hl1b.2]]
  have hcb : 0 ≤ c ∧ c ≤ 1 - |2 * l1 - 1| := by
    constructor
    · exact mul_nonneg (by linarith) hs1b.1
    · exact mul_le_of_le_one_right (by linarith) hs1b.2
  have hc2l : c ≤ 2 * l1 := by
    have := abs_le.mp habs
    have h21 : 1 - 2 * l1 ≤ |2 * l1 - 1| := by
      rw [abs_sub_comm]
      exact le_abs_self _
    linarith [hcb.2]
  have hc2l' : c ≤ 2 - 2 * l1 := by
    have h21 : 2 * l1 - 1 ≤ |2 * l1 - 1| := le_abs_self _
    linarith [hcb.2]
  have hw : 0 ≤ pyMod (h1 / 60) 2 ∧ pyMod (h1 / 60) 2 < 2 :=
    ⟨pyMod_nonneg _ (by norm_num), pyMod_lt _ (by norm_num)⟩
  have hxfac : |pyMod (h1 / 60) 2 - 1| ≤ 1 := by
    rw [abs_le]
    constructor <;> [linarith [hw.1]; linarith [hw.2]]
  have hxb : 0 ≤ x ∧ x ≤ c := by
    constructor
    · exact mul_nonneg hcb.1 (by linarith)
    · exact mul_le_of_le_one_right hcb.1
        (by linarith [abs_nonneg (pyMod (h1 / 60) 2 - 1)])
  have hmb : 0 ≤ m := by rw [hm]; linarith
  have hcm : c + m ≤ 1 := by rw [hm]; linarith
  have key : ∀ v : ℚ, 0 ≤ v → v ≤ c →
      0 ≤ pyInt ((v + m) * 255) ∧ pyInt ((v + m) * 255) ≤ 255 := by
    intro v hv0 hvc
    exact pyIntChannel_bounds (by linarith) (by linarith)
  have k0 := key 0 (le_refl 0) hcb.1
  have kx := key x hxb.1 hxb.2
  have kc := key c hcb.1 (le_refl c)
  split_ifs <;>
    first
    | exact ⟨kc, kx, k0⟩
    | exact ⟨kx, kc, k0⟩
    | exact ⟨k0, kc, kx⟩
    | exact ⟨k0, kx, kc⟩
    | exact ⟨kx, k0, kc⟩
    | exact ⟨kc, k0, kx⟩

/-! ### Stripping and tokenization lemmas -/

theorem dropWhile_eq_self_of_all {α : Type} (p : α → Bool) (l : List α)
    (h : ∀ c ∈ l, p c = false) : l.dropWhile p = l := by
  cases l with
  | nil => rfl
  | cons a t =>
    exact List.dropWhile_cons_of_neg (by simp [h a (List.mem_cons_self a t)])

theorem stripList_eq_self {l : List Char}
    (h : ∀ c ∈ l, isSpaceChar c = false) : stripList l = l := by
  unfold stripList
  rw [dropWhile_eq_self_of_all _ _ h,
    dropWhile_eq_self_of_all _ _ (fun c hc => h c (by simpa using hc)),
    List.reverse_reverse]

theorem stripList_eq_nil {l : List Char}
    (h : ∀ c ∈ l, isSpaceChar c = true) : stripList l = [] := by
  have h1 : l.dropWhile isSpaceChar = [] :=
    List.dropWhile_eq_nil_iff.mpr (by simpa using h)
  rw [stripList, h1]
  rfl

theorem stripList_hex {l : List Char}
    (h : ∀ c ∈ l, isHexDigitChar c = true) : stripList l = l :=
  stripList_eq_self (fun c hc => not_space_of_hexDigit (h c hc))

theorem dropHash_hex {l : List Char} (h : ∀ c ∈ l, isHexDigitChar c = true) :
    l.dropWhile (· == '#') = l :=
  dropWhile_eq_self_of_all _ _ (fun c hc => ne_hash_of_hexDigit (h c hc))

/-! ### Lemmas about the vague-description parser -/

theorem findBase_none_iff {ws : List String} :
    findBase ws = none ↔ ∀ w ∈ ws, lookupTbl BASE_COLORS w = none := by
  induction ws with
  | nil => simp [findBase]
  | cons w ws ih =>
    rw [findBase]
    cases hw : lookupTbl BASE_COLORS w with
    | some hsl =>
      simp only [List.mem_cons]
      constructor
      · intro h
        exact absurd h (by simp)
      · intro h
        exact absurd hw (by simp [h w (Or.inl rfl)])
    | none =>
      simp only [Option.map_eq_none', ih, List.mem_cons]
      constructor
      · intro h u hu
        rcases hu with rfl | hu
        · exact hw
        · exact h u hu
      · intro h u hu
        exact h u (Or.inr hu)

theorem parseVagueWords_none_iff {ws : List String} :
    parseVagueWords ws = none ↔ ∀ w ∈ ws, lookupTbl BASE_COLORS w = none := by
  rw [parseVagueWords, Option.map_eq_none', findBase_none_iff]

theorem findBase_split {pre : List String} {w : String} {hsl : ℚ × ℚ × ℚ}
    (hpre : ∀ u ∈ pre, lookupTbl BASE_COLORS u = none)
    (hw : lookupTbl BASE_COLORS w = some hsl) (post : List String) :
    findBase (pre ++ w :: post) = some (hsl, pre ++ post) := by
  induction pre with
  | nil =>
    rw [List.nil_append, findBase, hw, List.nil_append]
  | cons u pre ih =>
    rw [List.cons_append, findBase, hpre u (List.mem_cons_self u pre),
      ih (fun v hv => hpre v (List.mem_cons_of_mem u hv))]
    rfl

theorem applyMod_not_modifier {u : String} (h : lookupTbl MODIFIERS u = none)
    (p : ℚ × ℚ × ℚ) : applyMod p u = p := by
  rw [applyMod, h]

theorem applyMods_append (p : ℚ × ℚ × ℚ) (l1 l2 : List String) :
    applyMods p (l1 ++ l2) = applyMods (applyMods p l1) l2 := by
  simp [applyMods, List.foldl_append]

theorem applyMods_ignore {u : String} (h : lookupTbl MODIFIERS u = none)
    (p : ℚ × ℚ × ℚ) (m1 m2 : List String) :
    applyMods p (m1 ++ u :: m2) = applyMods p (m1 ++ m2) := by
  rw [applyMods_append, applyMods_append]
  show applyMods (applyMod (applyMods p m1) u) m2 = _
  rw [applyMod_not_modifier h]

theorem findBase_skip {u : String} (hu : lookupTbl BASE_COLORS u = none)
    (l1 l2 : List String) :
    (findBase (l1 ++ u :: l2) = none ∧ findBase (l1 ++ l2) = none) ∨
    ∃ hsl m1 m2, findBase (l1 ++ l2) = some (hsl, m1 ++ m2) ∧
      findBase (l1 ++ u :: l2) = some (hsl, m1 ++ u :: m2) := by
  induction l1 with
  | nil =>
    rw [List.nil_append, List.nil_append, findBase, hu]
    cases h2 : findBase l2 with
    | none => exact Or.inl ⟨rfl, rfl⟩
    | some p =>
      exact Or.inr ⟨p.1, [], p.2, by simp, by simp⟩
  | cons w l1 ih =>
    rw [List.cons_append, List.cons_append, findBase, findBase]
    cases hw : lookupTbl BASE_COLORS w with
    | some hsl =>
      exact Or.inr ⟨hsl, l1, l2, rfl, rfl⟩
    | none =>
      rcases ih with ⟨h1, h2⟩ | ⟨hsl, m1, m2, h1, h2⟩
      · exact Or.inl ⟨by rw [h1]; rfl, by rw [h2]; rfl⟩
      · exact Or.inr ⟨hsl, w :: m1, m2, by rw [h1]; rfl, by rw [h2]; rfl⟩

theorem parseVagueWords_ignore {u : String}
    (hu : lookupTbl BASE_COLORS u = none) (hm : lookupTbl MODIFIERS u = none)
    (l1 l2 : List String) :
    parseVagueWords (l1 ++ u :: l2) = parseVagueWords (l1 ++ l2) := by
  unfold parseVagueWords
  rcases findBase_skip hu l1 l2 with ⟨h1, h2⟩ | ⟨hsl, m1, m2, h1, h2⟩
  · rw [h1, h2]
  · rw [h1, h2, Option.map_some', Option.map_some', applyMods_ignore hm]

theorem applyMod_comm (p : ℚ × ℚ × ℚ) (w w' : String) :
    applyMod (applyMod p w) w' = applyMod (applyMod p w') w := by
  unfold applyMod
  cases hw : lookupTbl MODIFIERS w with
  | none =>
    cases hw' : lookupTbl MODIFIERS w' with
    | none => rfl
    | some b => rfl
  | some a =>
    cases hw' : lookupTbl MODIFIERS w' with
    | none => rfl
    | some b =>
      show (p.1 + a.h_add + b.h_add, p.2.1 * a.s_mult * b.s_mult,
          p.2.2 + a.l_add + b.l_add) =
        (p.1 + b.h_add + a.h_add, p.2.1 * b.s_mult * a.s_mult,
          p.2.2 + b.l_add + a.l_add)
      refine Prod.ext ?_ (Prod.ext ?_ ?_) <;> dsimp only <;> ring

/-! ### Shape of resolution results -/

theorem hash_cons (l : List Char) : "#" ++ (⟨l⟩ : String) = ⟨'#' :: l⟩ := rfl

theorem fmtHex_ne_empty (n : ℕ) : fmtHex n ≠ "" := by
  intro h
  have := congrArg String.data h
  rw [fmtHex, String.data_append] at this
  simp at this

theorem length_dup (l : List Char) : (l.flatMap fun c => [c, c]).length = 2 * l.length := by
  induction l with
  | nil => rfl
  | cons a t ih =>
    rw [List.flatMap_cons, List.length_append, ih, List.length_cons]
    simp
    omega

theorem parse_hex_color_lt {s : String} {c : ℕ}
    (h : parse_hex_color s = some c) : c < 16 ^ 6 := by
  revert h
  dsimp only [parse_hex_color]
  split_ifs with h1 h2
  · intro h
    obtain rfl := Option.some.inj h
    have := hexNat_lt ((stripList s.data).dropWhile (· == '#'))
    rw [h1.1] at this
    exact this
  · intro h
    obtain rfl := Option.some.inj h
    have := hexNat_lt (((stripList s.data).dropWhile (· == '#')).flatMap fun c => [c, c])
    rw [length_dup, h2.1] at this
    exact this
  · intro h
    exact absurd h (by simp)

theorem lookupTbl_bound {l : List (String × ℕ)} {w : String} {c : ℕ}
    (hall : ∀ p ∈ l, p.2 < 2 ^ 24) (h : lookupTbl l w = some c) : c < 2 ^ 24 := by
  induction l with
  | nil => exact absurd h (by simp [lookupTbl])
  | cons p t ih =>
    rw [lookupTbl] at h
    split_ifs at h with hk
    · obtain rfl := Option.some.inj h
      exact hall p (List.mem_cons_self p t)
    · exact ih (fun q hq => hall q (List.mem_cons_of_mem p hq)) h

set_option maxRecDepth 4000 in
theorem css_values_bound : ∀ p ∈ CSS_COLORS, p.2 < 2 ^ 24 := by decide

theorem color_name_to_hex_lt {s : String} {c : ℕ}
    (h : color_name_to_hex s = some c) : c < 2 ^ 24 :=
  lookupTbl_bound css_values_bound h

theorem finishVague_lt (p : ℚ × ℚ × ℚ) : finishVague p < 2 ^ 24 := by
  have h := hsl_to_rgb_bounds (pyMod p.1 360) (pyClamp p.2.1) (pyClamp p.2.2)
  exact packRGB_lt h.1.2 h.2.1.2 h.2.2.2

theorem parse_vague_color_lt {s : String} {c : ℕ}
    (h : parse_vague_color s = some c) : c < 2 ^ 24 := by
  rw [parse_vague_color, parseVagueWords, Option.map_eq_some'] at h
  obtain ⟨p, _, rfl⟩ := h
  exact finishVague_lt _

theorem pair_invariant {c : ℕ} (hc : c < 2 ^ 24) :
    ((some c : Option ℕ) = none ↔ fmtHex c = "") ∧
    (∀ c', (some c : Option ℕ) = some c' →
      c' < 2 ^ 24 ∧ fmtHex c = ⟨'#' :: digitsBE 6 c'⟩ ∧
      (digitsBE 6 c').length = 6 ∧
      (∀ ch ∈ digitsBE 6 c', isUpperHexDigit ch = true) ∧
      hexNat (digitsBE 6 c') = c') := by
  have hc6 : c < 16 ^ 6 := by
    have h : (16 : ℕ) ^ 6 = 2 ^ 24 := by norm_num
    rw [h]
    exact hc
  constructor
  · constructor
    · intro h
      exact absurd h (by simp)
    · intro h
      exact absurd h (fmtHex_ne_empty c)
  · intro c' h
    obtain rfl := Option.some.inj h
    refine ⟨hc, ?_, digitsBE_length 6 c, fun ch hch => mem_digitsBE_upperHex hch,
      hexNat_digitsBE hc6⟩
    rw [fmtHex, fmt06X_eq_digitsBE hc6, hash_cons]

/-! ### Claims -/

/-- Claim C1, counterexample: the role-label function does not return the bare
stripped-and-uppercased hex string; on `"#ff5733"` it returns
`"color-FF5733"`, not `"FF5733"` as the claim states. -/
theorem c1_roleLabel_counterexample :
    get_role_name "#ff5733" ≠ "FF5733" ∧
    get_role_name "#ff5733" = "color-FF5733" := by decide

/-- Claim C1, amended: for every well-formed hex string (a `#` followed by hex
digits), `get_role_name` returns `"color-"` followed by the input with its
leading `#` stripped and all letters uppercased, with no failure mode; in
particular `get_role_name "#ff5733" = "color-FF5733"`. -/
theorem c1_roleLabel_amended :
    (∀ ds : List Char, (∀ c ∈ ds, isHexDigitChar c = true) →
      get_role_name ⟨'#' :: ds⟩ = "color-" ++ pyUpper ⟨ds⟩) ∧
    get_role_name "#ff5733" = "color-FF5733" := by
  constructor
  · intro ds h
    have hdrop : (⟨'#' :: ds⟩ : String).data.dropWhile (· == '#') = ds := by
      show ('#' :: ds).dropWhile (· == '#') = ds
      rw [List.dropWhile_cons_of_pos (by rfl), dropHash_hex h]
    rw [get_role_name, hdrop]
  · decide

/-- Witness for the amended claim C1 at the concrete input `"#ff5733"`. -/
theorem c1_roleLabel_amended_witness :
    get_role_name ⟨'#' :: ['f', 'f', '5', '7', '3', '3']⟩ =
      "color-" ++ pyUpper ⟨['f', 'f', '5', '7', '3', '3']⟩ :=
  c1_roleLabel_amended.1 ['f', 'f', '5', '7', '3', '3'] (by decide)

/-- Claim C2, counterexample: the claim demands that
`resolve "dark pastel red"` and `resolve "pastel dark red"` differ, but on
this code they are equal: modifiers update hue, saturation and lightness
independently (additively resp. multiplicatively) and clamping happens only
once after all modifiers, so modifier application commutes. -/
theorem c2_modifier_order_counterexample :
    get_color_from_input "dark pastel red" =
      get_color_from_input "pastel dark red" := by
  have hx1 : parse_hex_color "dark pastel red" = none := by decide
  have hx2 : parse_hex_color "pastel dark red" = none := by decide
  have hn1 : color_name_to_hex "dark pastel red" = none := by decide
  have hn2 : color_name_to_hex "pastel dark red" = none := by decide
  have hw1 : words "dark pastel red" = ["dark", "pastel", "red"] := by decide
  have hw2 : words "pastel dark red" = ["pastel", "dark", "red"] := by decide
  have hf1 : findBase ["dark", "pastel", "red"] =
      some ((0, 100, 50), ["dark", "pastel"]) := rfl
  have hf2 : findBase ["pastel", "dark", "red"] =
      some ((0, 100, 50), ["pastel", "dark"]) := rfl
  have hmods : applyMods ((0 : ℚ), (100 : ℚ), (50 : ℚ)) ["dark", "pastel"] =
      applyMods ((0 : ℚ), (100 : ℚ), (50 : ℚ)) ["pastel", "dark"] := by
    show applyMod (applyMod (0, 100, 50) "dark") "pastel" =
      applyMod (applyMod (0, 100, 50) "pastel") "dark"
    exact applyMod_comm _ _ _
  have hv : parse_vague_color "dark pastel red" =
      parse_vague_color "pastel dark red" := by
    rw [parse_vague_color, parse_vague_color, hw1, hw2, parseVagueWords,
      parseVagueWords, hf1, hf2, Option.map_some', Option.map_some', hmods]
  simp only [get_color_from_input, hx1, hx2, hn1, hn2, hv]

/-- Claim C2, amended: modifier compounding is commutative on this code —
swapping two adjacent modifier applications never changes the running HSL
state, and in particular `resolve "dark pastel red"` equals
`resolve "pastel dark red"` (the spec's required inequality does not hold
because no clamping happens between modifier applications). -/
theorem c2_modifier_order_amended :
    (∀ (p : ℚ × ℚ × ℚ) (w w' : String),
      applyMod (applyMod p w) w' = applyMod (applyMod p w') w) ∧
    get_color_from_input "dark pastel red" =
      get_color_from_input "pastel dark red" := by
  constructor
  · exact applyMod_comm
  · have hx1 : parse_hex_color "dark pastel red" = none := by decide
    have hx2 : parse_hex_color "pastel dark red" = none := by decide
    have hn1 : color_name_to_hex "dark pastel red" = none := by decide
    have hn2 : color_name_to_hex "pastel dark red" = none := by decide
    have hw1 : words "dark pastel red" = ["dark", "pastel", "red"] := by decide
    have hw2 : words "pastel dark red" = ["pastel", "dark", "red"] := by decide
    have hf1 : findBase ["dark", "pastel", "red"] =
        some ((0, 100, 50), ["dark", "pastel"]) := rfl
    have hf2 : findBase ["pastel", "dark", "red"] =
        some ((0, 100, 50), ["pastel", "dark"]) := rfl
    have hmods : applyMods ((0 : ℚ), (100 : ℚ), (50 : ℚ)) ["dark", "pastel"] =
        applyMods ((0 : ℚ), (100 : ℚ), (50 : ℚ)) ["pastel", "dark"] := by
      show applyMod (applyMod (0, 100, 50) "dark") "pastel" =
        applyMod (applyMod (0, 100, 50) "pastel") "dark"
      exact applyMod_comm _ _ _
    have hv : parse_vague_color "dark pastel red" =
        parse_vague_color "pastel dark red" := by
      rw [parse_vague_color, parse_vague_color, hw1, hw2, parseVagueWords,
        parseVagueWords, hf1, hf2, Option.map_some', Option.map_some', hmods]
    simp only [get_color_from_input, hx1, hx2, hn1, hn2, hv]

/-- Claim C3: the pipeline tries the hex parser, then the name table, then
the vague parser, returning the first match, and `(none, "")` when all three
fail; in particular `resolve "banana-republic" = (none, "")`. -/
theorem c3_pipeline_priority :
    (∀ s : String,
      (∀ c, parse_hex_color s = some c →
        get_color_from_input s = (some c, fmtHex c)) ∧
      (parse_hex_color s = none → ∀ c, color_name_to_hex s = some c →
        get_color_from_input s = (some c, fmtHex c)) ∧
      (parse_hex_color s = none → color_name_to_hex s = none →
        ∀ c, parse_vague_color s = some c →
          get_color_from_input s = (some c, fmtHex c)) ∧
      (parse_hex_color s = none → color_name_to_hex s = none →
        parse_vague_color s = none → get_color_from_input s = (none, ""))) ∧
    get_color_from_input "banana-republic" = (none, "") := by
  constructor
  · intro s
    refine ⟨?_, ?_, ?_, ?_⟩
    · intro c hc
      simp [get_color_from_input, hc]
    · intro h1 c hc
      simp [get_color_from_input, h1, hc]
    · intro h1 h2 c hc
      simp [get_color_from_input, h1, h2, hc]
    · intro h1 h2 h3
      simp [get_color_from_input, h1, h2, h3]
  · decide

/-- Witness for C3: the first resolver decides `"ff0000"`. -/
theorem c3_pipeline_priority_witness :
    get_color_from_input "ff0000" = (some 16711680, "#FF0000") := by
  have h := (c3_pipeline_priority.1 "ff0000").1 16711680 (by decide)
  rw [h]
  decide

/-- Claim C5: 3-hex-digit inputs resolve exactly like their 6-digit
channel-duplicated expansion, with or without a leading `#`. -/
theorem c5_three_digit_duplication :
    ∀ a b c : Char, isHexDigitChar a = true → isHexDigitChar b = true →
      isHexDigitChar c = true →
      get_color_from_input ⟨[a, b, c]⟩ =
        get_color_from_input ⟨[a, a, b, b, c, c]⟩ ∧
      get_color_from_input ⟨['#', a, b, c]⟩ =
        get_color_from_input ⟨[a, a, b, b, c, c]⟩ := by
  intro a b c ha hb hc
  have hall3 : ∀ d ∈ [a, b, c], isHexDigitChar d = true := by
    intro d hd
    simp only [List.mem_cons, List.not_mem_nil, or_false] at hd
    rcases hd with rfl | rfl | rfl <;> assumption
  have hall6 : ∀ d ∈ [a, a, b, b, c, c], isHexDigitChar d = true := by
    intro d hd
    simp only [List.mem_cons, List.not_mem_nil, or_false] at hd
    rcases hd with rfl | rfl | rfl | rfl | rfl | rfl <;> assumption
  have h3 : parse_hex_color ⟨[a, b, c]⟩ = some (hexNat [a, a, b, b, c, c]) := by
    dsimp only [parse_hex_color]
    rw [stripList_hex hall3, dropHash_hex hall3,
      if_neg (by simp), if_pos ⟨by simp, by simpa [List.all_eq_true] using hall3⟩]
    rfl
  have h6 : parse_hex_color ⟨[a, a, b, b, c, c]⟩ =
      some (hexNat [a, a, b, b, c, c]) := by
    dsimp only [parse_hex_color]
    rw [stripList_hex hall6, dropHash_hex hall6,
      if_pos ⟨by simp, by simpa [List.all_eq_true] using hall6⟩]
  have h3' : parse_hex_color ⟨['#', a, b, c]⟩ =
      some (hexNat [a, a, b, b, c, c]) := by
    dsimp only [parse_hex_color]
    have hs : stripList ['#', a, b, c] = ['#', a, b, c] := by
      refine stripList_eq_self ?_
      intro d hd
      simp only [List.mem_cons, List.not_mem_nil, or_false] at hd
      rcases hd with rfl | rfl | rfl | rfl
      · decide
      · exact not_space_of_hexDigit ha
      · exact not_space_of_hexDigit hb
      · exact not_space_of_hexDigit hc
    rw [hs]
    show (if (List.dropWhile (· == '#') ['#', a, b, c]).length = 6 ∧ _ then _
      else _) = _
    rw [List.dropWhile_cons_of_pos (by rfl), dropHash_hex hall3,
      if_neg (by simp), if_pos ⟨by simp, by simpa [List.all_eq_true] using hall3⟩]
    rfl
  refine ⟨?_, ?_⟩ <;> simp [get_color_from_input, h3, h6, h3']

/-- Witness for C5 at `"F08"`: it resolves exactly like `"FF0088"`. -/
theorem c5_three_digit_duplication_witness :
    get_color_from_input ⟨['F', '0', '8']⟩ =
      get_color_from_input ⟨['F', 'F', '0', '0', '8', '8']⟩ :=
  (c5_three_digit_duplication 'F' '0' '8' (by decide) (by decide) (by decide)).1

/-- Claim C6: in the vague parser, the first token that is a `BASE_COLORS`
key is the base color and the remaining tokens (preceding group first, then
following group, original relative order) are the candidate modifiers; a
token that is neither a base color nor a modifier is silently ignored; and
the parser reports no match exactly when no token is a `BASE_COLORS` key. -/
theorem c6_vague_structure :
    (∀ s : String, parse_vague_color s = none ↔
      ∀ w ∈ words s, lookupTbl BASE_COLORS w = none) ∧
    (∀ (pre : List String) (w : String) (post : List String) (hsl : ℚ × ℚ × ℚ),
      (∀ u ∈ pre, lookupTbl BASE_COLORS u = none) →
      lookupTbl BASE_COLORS w = some hsl →
      parseVagueWords (pre ++ w :: post) =
        some (finishVague (applyMods hsl (pre ++ post)))) ∧
    (∀ (l1 l2 : List String) (u : String),
      lookupTbl BASE_COLORS u = none → lookupTbl MODIFIERS u = none →
      parseVagueWords (l1 ++ u :: l2) = parseVagueWords (l1 ++ l2)) := by
  refine ⟨?_, ?_, ?_⟩
  · intro s
    exact parseVagueWords_none_iff
  · intro pre w post hsl hpre hw
    rw [parseVagueWords, findBase_split hpre hw post, Option.map_some']
  · intro l1 l2 u hb hm
    exact parseVagueWords_ignore hb hm l1 l2

/-- Witness for C6: `["dark", "red"]` takes `red` as base and `dark` as the
modifier list. -/
theorem c6_vague_structure_witness :
    parseVagueWords ["dark", "red"] =
      some (finishVague (applyMods (0, 100, 50) ["dark"])) :=
  c6_vague_structure.2.1 ["dark"] "red" [] (0, 100, 50)
    (by intro u hu; simp only [List.mem_singleton] at hu; subst hu; rfl) rfl

/-- Claim C4, counterexample: the claim's negative half ("any other remainder
length or any non-hex character yields no match from the hex parser") fails:
`"F08"` has remainder length 3 and matches (`0xFF0088`), and `"##ff5733"` has
a `#` left in the remainder after removing one optional leading `#` yet
matches, because `lstrip("#")` removes every leading `#`. -/
theorem c4_hex_counterexample :
    parse_hex_color "F08" = some 0xff0088 ∧
    parse_hex_color "##ff5733" = some 0xff5733 := by decide

/-- Claim C4, amended: strip surrounding whitespace and all leading `#`
characters; a remainder of exactly 6 hex digits resolves to its big-endian
24-bit value with hex string `#` followed by the 6 digits uppercased; a
remainder that is neither exactly 6 nor exactly 3 hex digits yields no match
from the hex parser (3-digit remainders match via digit duplication, C5). -/
theorem c4_hex_six_amended :
    ∀ s : String,
      ((((stripList s.data).dropWhile (· == '#')).length = 6 ∧
        (∀ c ∈ (stripList s.data).dropWhile (· == '#'), isHexDigitChar c = true)) →
        get_color_from_input s =
          (some (hexNat ((stripList s.data).dropWhile (· == '#'))),
            ⟨'#' :: ((stripList s.data).dropWhile (· == '#')).map upperChar⟩)) ∧
      (¬(((stripList s.data).dropWhile (· == '#')).length = 6 ∧
          ((stripList s.data).dropWhile (· == '#')).all isHexDigitChar = true) →
        ¬(((stripList s.data).dropWhile (· == '#')).length = 3 ∧
          ((stripList s.data).dropWhile (· == '#')).all isHexDigitChar = true) →
        parse_hex_color s = none) := by
  intro s
  constructor
  · rintro ⟨hlen, hhex⟩
    have hp : parse_hex_color s =
        some (hexNat ((stripList s.data).dropWhile (· == '#'))) := by
      dsimp only [parse_hex_color]
      rw [if_pos ⟨hlen, by simpa [List.all_eq_true] using hhex⟩]
    have hfmt : fmtHex (hexNat ((stripList s.data).dropWhile (· == '#'))) =
        ⟨'#' :: ((stripList s.data).dropWhile (· == '#')).map upperChar⟩ := by
      rw [fmtHex, fmt06X_eq_digitsBE (by rw [← hlen]; exact hexNat_lt _),
        hash_cons]
      rw [← hlen, digitsBE_of_digits hhex]
    simp only [get_color_from_input, hp, hfmt]
  · intro h6 h3
    dsimp only [parse_hex_color]
    rw [if_neg h6, if_neg h3]

/-- Witness for the amended C4 at `" #00fF00 "`. -/
theorem c4_hex_six_amended_witness :
    get_color_from_input " #00fF00 " =
      (some (hexNat ((stripList " #00fF00 ".data).dropWhile (· == '#'))),
        ⟨'#' :: ((stripList " #00fF00 ".data).dropWhile (· == '#')).map
          upperChar⟩) :=
  (c4_hex_six_amended " #00fF00 ").1 ⟨by decide, by decide⟩

/-- Claim C7: on its stated domain (hue in `[0, 360)`, saturation and
lightness in `[0, 100]`), `hsl_to_rgb` computes exactly the spec's transform:
`c = (1 - |2l - 1|) * s`, `x = c * (1 - |(h / 60) mod 2 - 1|)`,
`m = l - c / 2` with s, l normalized to `[0, 1]`, pre-offset triple selected
by the standard table from the 60-degree sector index `⌊h / 60⌋`, then `+ m`,
`* 255` and truncation toward zero. -/
theorem c7_hsl_to_rgb_formula :
    ∀ h s l : ℚ, 0 ≤ h → h < 360 → 0 ≤ s → s ≤ 100 → 0 ≤ l → l ≤ 100 →
      hsl_to_rgb h s l = hslToRgbSpec h s l := by
  intro h s l hh0 hh1 hs0 hs1 hl0 hl1
  unfold hsl_to_rgb hslToRgbSpec
  dsimp only
  rw [pyMod_eq_self hh0 hh1, pyClamp_eq_self hs0 hs1, pyClamp_eq_self hl0 hl1]
  rcases lt_or_le h 60 with hc1 | hc1
  · have hf : ⌊h / 60⌋ = 0 := by
      rw [Int.floor_eq_iff]
      push_cast
      constructor <;> linarith
    rw [if_pos hc1, hf]
    norm_num
  · rcases lt_or_le h 120 with hc2 | hc2
    · have hf : ⌊h / 60⌋ = 1 := by
        rw [Int.floor_eq_iff]
        push_cast
        constructor <;> linarith
      rw [if_neg (not_lt.mpr hc1), if_pos hc2, hf]
      norm_num
    · rcases lt_or_le h 180 with hc3 | hc3
      · have hf : ⌊h / 60⌋ = 2 := by
          rw [Int.floor_eq_iff]
          push_cast
          constructor <;> linarith
        rw [if_neg (not_lt.mpr hc1), if_neg (not_lt.mpr hc2), if_pos hc3, hf]
        norm_num
      · rcases lt_or_le h 240 with hc4 | hc4
        · have hf : ⌊h / 60⌋ = 3 := by
            rw [Int.floor_eq_iff]
            push_cast
            constructor <;> linarith
          rw [if_neg (not_lt.mpr hc1), if_neg (not_lt.mpr hc2),
            if_neg (not_lt.mpr hc3), if_pos hc4, hf]
          norm_num
        · rcases lt_or_le h 300 with hc5 | hc5
          · have hf : ⌊h / 60⌋ = 4 := by
              rw [Int.floor_eq_iff]
              push_cast
              constructor <;> linarith
            rw [if_neg (not_lt.mpr hc1), if_neg (not_lt.mpr hc2),
              if_neg (not_lt.mpr hc3), if_neg (not_lt.mpr hc4), if_pos hc5, hf]
            norm_num
          · have hf : ⌊h / 60⌋ = 5 := by
              rw [Int.floor_eq_iff]
              push_cast
              constructor <;> linarith
            rw [if_neg (not_lt.mpr hc1), if_neg (not_lt.mpr hc2),
              if_neg (not_lt.mpr hc3), if_neg (not_lt.mpr hc4),
              if_neg (not_lt.mpr hc5), hf]
            norm_num

/-- Witness for C7 at pure red, HSL (0, 100, 50). -/
theorem c7_hsl_to_rgb_formula_witness :
    hsl_to_rgb 0 100 50 = hslToRgbSpec 0 100 50 :=
  c7_hsl_to_rgb_formula 0 100 50 (by norm_num) (by norm_num) (by norm_num)
    (by norm_num) (by norm_num) (by norm_num)

/-- Claim C8: for every base color of the table and every modifier token
sequence, after the final normalization the hue is in `[0, 360)` and
saturation and lightness are in `[0, 100]`, and each RGB output channel of
the conversion lies in `[0, 255]` — no underflow below 0, no overflow
above 255. -/
theorem c8_channels_bounded :
    ∀ (name : String) (hsl : ℚ × ℚ × ℚ),
      lookupTbl BASE_COLORS name = some hsl →
      ∀ mods : List String,
        (0 ≤ pyMod (applyMods hsl mods).1 360 ∧
          pyMod (applyMods hsl mods).1 360 < 360 ∧
          0 ≤ pyClamp (applyMods hsl mods).2.1 ∧
          pyClamp (applyMods hsl mods).2.1 ≤ 100 ∧
          0 ≤ pyClamp (applyMods hsl mods).2.2 ∧
          pyClamp (applyMods hsl mods).2.2 ≤ 100) ∧
        (0 ≤ (hsl_to_rgb (pyMod (applyMods hsl mods).1 360)
            (pyClamp (applyMods hsl mods).2.1)
            (pyClamp (applyMods hsl mods).2.2)).1 ∧
          (hsl_to_rgb (pyMod (applyMods hsl mods).1 360)
            (pyClamp (applyMods hsl mods).2.1)
            (pyClamp (applyMods hsl mods).2.2)).1 ≤ 255 ∧
          0 ≤ (hsl_to_rgb (pyMod (applyMods hsl mods).1 360)
            (pyClamp (applyMods hsl mods).2.1)
            (pyClamp (applyMods hsl mods).2.2)).2.1 ∧
          (hsl_to_rgb (pyMod (applyMods hsl mods).1 360)
            (pyClamp (applyMods hsl mods).2.1)
            (pyClamp (applyMods hsl mods).2.2)).2.1 ≤ 255 ∧
          0 ≤ (hsl_to_rgb (pyMod (applyMods hsl mods).1 360)
            (pyClamp (applyMods hsl mods).2.1)
            (pyClamp (applyMods hsl mods).2.2)).2.2 ∧
          (hsl_to_rgb (pyMod (applyMods hsl mods).1 360)
            (pyClamp (applyMods hsl mods).2.1)
            (pyClamp (applyMods hsl mods).2.2)).2.2 ≤ 255) := by
  intro name hsl _ mods
  refine ⟨⟨pyMod_nonneg _ (by norm_num), pyMod_lt _ (by norm_num),
    pyClamp_nonneg _, pyClamp_le _, pyClamp_nonneg _, pyClamp_le _⟩, ?_⟩
  have h := hsl_to_rgb_bounds (pyMod (applyMods hsl mods).1 360)
    (pyClamp (applyMods hsl mods).2.1) (pyClamp (applyMods hsl mods).2.2)
  exact ⟨h.1.1, h.1.2, h.2.1.1, h.2.1.2, h.2.2.1, h.2.2.2⟩

/-- Witness for C8: base `red`, modifiers `["neon", "warm"]`. -/
theorem c8_channels_bounded_witness :
    (0 ≤ pyMod (applyMods (0, 100, 50) ["neon", "warm"]).1 360 ∧
      pyMod (applyMods (0, 100, 50) ["neon", "warm"]).1 360 < 360 ∧
      0 ≤ pyClamp (applyMods (0, 100, 50) ["neon", "warm"]).2.1 ∧
      pyClamp (applyMods (0, 100, 50) ["neon", "warm"]).2.1 ≤ 100 ∧
      0 ≤ pyClamp (applyMods (0, 100, 50) ["neon", "warm"]).2.2 ∧
      pyClamp (applyMods (0, 100, 50) ["neon", "warm"]).2.2 ≤ 100) ∧
    (0 ≤ (hsl_to_rgb (pyMod (applyMods (0, 100, 50) ["neon", "warm"]).1 360)
        (pyClamp (applyMods (0, 100, 50) ["neon", "warm"]).2.1)
        (pyClamp (applyMods (0, 100, 50) ["neon", "warm"]).2.2)).1 ∧
      (hsl_to_rgb (pyMod (applyMods (0, 100, 50) ["neon", "warm"]).1 360)
        (pyClamp (applyMods (0, 100, 50) ["neon", "warm"]).2.1)
        (pyClamp (applyMods (0, 100, 50) ["neon", "warm"]).2.2)).1 ≤ 255 ∧
      0 ≤ (hsl_to_rgb (pyMod (applyMods (0, 100, 50) ["neon", "warm"]).1 360)
        (pyClamp (applyMods (0, 100, 50) ["neon", "warm"]).2.1)
        (pyClamp (applyMods (0, 100, 50) ["neon", "warm"]).2.2)).2.1 ∧
      (hsl_to_rgb (pyMod (applyMods (0, 100, 50) ["neon", "warm"]).1 360)
        (pyClamp (applyMods (0, 100, 50) ["neon", "warm"]).2.1)
        (pyClamp (applyMods (0, 100, 50) ["neon", "warm"]).2.2)).2.1 ≤ 255 ∧
      0 ≤ (hsl_to_rgb (pyMod (applyMods (0, 100, 50) ["neon", "warm"]).1 360)
        (pyClamp (applyMods (0, 100, 50) ["neon", "warm"]).2.1)
        (pyClamp (applyMods (0, 100, 50) ["neon", "warm"]).2.2)).2.2 ∧
      (hsl_to_rgb (pyMod (applyMods (0, 100, 50) ["neon", "warm"]).1 360)
        (pyClamp (applyMods (0, 100, 50) ["neon", "warm"]).2.1)
        (pyClamp (applyMods (0, 100, 50) ["neon", "warm"]).2.2)).2.2 ≤ 255) :=
  c8_channels_bounded "red" (0, 100, 50) rfl ["neon", "warm"]

/-- Claim C9: for every input, the returned hex string is empty exactly when
the color is absent; otherwise it is `#` followed by exactly 6 uppercase
hexadecimal digits, zero-padded, whose value is the returned 24-bit color —
regardless of which resolver produced the match. -/
theorem c9_resolution_invariant :
    ∀ s : String,
      ((get_color_from_input s).1 = none ↔ (get_color_from_input s).2 = "") ∧
      (∀ c, (get_color_from_input s).1 = some c →
        c < 2 ^ 24 ∧
        (get_color_from_input s).2 = ⟨'#' :: digitsBE 6 c⟩ ∧
        (digitsBE 6 c).length = 6 ∧
        (∀ ch ∈ digitsBE 6 c, isUpperHexDigit ch = true) ∧
        hexNat (digitsBE 6 c) = c) := by
  intro s
  cases hh : parse_hex_color s with
  | some c0 =>
    have hb : c0 < 2 ^ 24 := by
      have h1 := parse_hex_color_lt hh
      have h2 : (16 : ℕ) ^ 6 = 2 ^ 24 := by norm_num
      omega
    simp only [get_color_from_input, hh]
    exact pair_invariant hb
  | none =>
    cases hn : color_name_to_hex s with
    | some c0 =>
      simp only [get_color_from_input, hh, hn]
      exact pair_invariant (color_name_to_hex_lt hn)
    | none =>
      cases hv : parse_vague_color s with
      | some c0 =>
        simp only [get_color_from_input, hh, hn, hv]
        exact pair_invariant (parse_vague_color_lt hv)
      | none =>
        simp only [get_color_from_input, hh, hn, hv]
        exact ⟨by simp, fun c hc => absurd hc (by simp)⟩

/-- Witness for C9 at `"teal"` (decided by the name table). -/
theorem c9_resolution_invariant_witness :
    (0x008080 : ℕ) < 2 ^ 24 ∧
    (get_color_from_input "teal").2 = ⟨'#' :: digitsBE 6 0x008080⟩ ∧
    (digitsBE 6 0x008080).length = 6 ∧
    (∀ ch ∈ digitsBE 6 0x008080, isUpperHexDigit ch = true) ∧
    hexNat (digitsBE 6 0x008080) = 0x008080 :=
  (c9_resolution_invariant "teal").2 0x008080 (by decide)

/-- Claim C10: an input that is empty or all whitespace is resolved by no
component — the hex remainder is empty, the name lookup and the vague parse
fail (the token list is empty) — and the pipeline returns `(none, "")`. -/
theorem c10_whitespace_unrecognized :
    ∀ s : String, (∀ c ∈ s.data, isSpaceChar c = true) →
      parse_hex_color s = none ∧ color_name_to_hex s = none ∧
      words s = [] ∧ parse_vague_color s = none ∧
      get_color_from_input s = (none, "") := by
  intro s h
  have hstrip : stripList s.data = [] := stripList_eq_nil h
  have hlower : ∀ c ∈ (pyLower s).data, isSpaceChar c = true := by
    intro c hc
    obtain ⟨d, hd, rfl⟩ := List.mem_map.mp hc
    have hd' := h d hd
    have heq : lowerChar d = d := by
      unfold lowerChar
      rw [if_neg]
      simp only [isSpaceChar, decide_eq_true_eq] at hd'
      omega
    rw [heq]
    exact hd'
  have hstrip2 : stripList (pyLower s).data = [] := stripList_eq_nil hlower
  have hhex : parse_hex_color s = none := by
    dsimp only [parse_hex_color]
    rw [hstrip]
    rfl
  have hname : color_name_to_hex s = none := by
    dsimp only [color_name_to_hex, pyStrip]
    rw [hstrip2]
    decide
  have hwords : words s = [] := by
    dsimp only [words, pySplit, pyStrip]
    rw [hstrip2]
    rfl
  have hvague : parse_vague_color s = none := by
    rw [parse_vague_color, hwords]
    rfl
  exact ⟨hhex, hname, hwords, hvague,
    by simp [get_color_from_input, hhex, hname, hvague]⟩

/-- Witness for C10 at the two-space input `"  "`. -/
theorem c10_whitespace_unrecognized_witness :
    parse_hex_color "  " = none ∧ color_name_to_hex "  " = none ∧
    words "  " = [] ∧ parse_vague_color "  " = none ∧
    get_color_from_input "  " = (none, "") :=
  c10_whitespace_unrecognized "  " (by decide)

end ColorWizard
